import Mathlib

/-!
Verification of the lifecycle controller in `src/core/core.js` (p5 core):
the preload counting gate, the draw driver, the frame-count ticker, the
teardown (`remove`) protocol, and the global capability binding.

Each JavaScript routine is shallowly embedded as a pure Lean function on an
explicit state record.  Asynchrony is modelled by the single-threaded event
loop of the source environment: a loader invoked during the user `preload`
hook either completes synchronously (its completion callback runs during the
hook) or asynchronously (its callback runs after `_start` returns, in some
later event-loop turn).
-/

namespace P5Core

/-- State of the preload gate and lifecycle, from the fields of the `p5`
constructor: `_preloadCount` plus counters observing how often `_setup`,
`_runFrames` and `_draw` are entered. -/
structure LifeState where
  preloadCount : Int
  setupCalls : Nat
  runFramesCalls : Nat
  drawCalls : Nat
  deriving Repr, DecidableEq

/-- The constructor initialisation: `this._preloadCount = 0`. -/
def initLife : LifeState :=
  { preloadCount := 0, setupCalls := 0, runFramesCalls := 0, drawCalls := 0 }

/-- The triple `_setup(); _runFrames(); _draw();` that the source performs
whenever it decides the preload gate is drained. -/
def setupRunDraw (s : LifeState) : LifeState :=
  { s with setupCalls := s.setupCalls + 1
         , runFramesCalls := s.runFramesCalls + 1
         , drawCalls := s.drawCalls + 1 }

/-- The completion callback `_preload` hands to a loader:
`_preloadCount` is decremented and, if it reaches zero, `_setup()`,
`_runFrames()` and `_draw()` run (core.js lines 210-217). -/
def onLoadDone (s : LifeState) : LifeState :=
  let s := { s with preloadCount := s.preloadCount - 1 }
  if s.preloadCount = 0 then setupRunDraw s else s

/-- One preload-triggering call routed through `_preload` (core.js lines
207-218): the counter is incremented, then the underlying load is started;
`sync = true` means the loader invokes its completion callback immediately
(still inside the user preload hook), `sync = false` means the callback is
delivered in a later event-loop turn. -/
def triggerLoad (s : LifeState) (sync : Bool) : LifeState :=
  let s := { s with preloadCount := s.preloadCount + 1 }
  if sync then onLoadDone s else s

/-- The user preload hook, abstracted as the sequence of preload-triggering
calls it makes, each tagged with whether it completes synchronously. -/
def runHook (calls : List Bool) (s : LifeState) : LifeState :=
  calls.foldl triggerLoad s

/-- `_start` (core.js lines 186-204): if a user preload hook exists
(`some calls`) it is run and, when `_preloadCount === 0` afterwards,
`_setup(); _runFrames(); _draw();` run at once; if no preload hook exists
(`none`) the triple runs directly. -/
def start (hook : Option (List Bool)) (s : LifeState) : LifeState :=
  match hook with
  | some calls =>
      let s := runHook calls s
      if s.preloadCount = 0 then setupRunDraw s else s
  | none => setupRunDraw s

/-- A whole run: `_start`, then the event loop delivers the completion
callback of every still-outstanding asynchronous load.  All outstanding
callbacks are the same closure (each only decrements the shared counter), so
delivering them in any order is the same as iterating `onLoadDone`; the
number outstanding after `_start` is exactly the remaining counter value. -/
def runSketch (hook : Option (List Bool)) : LifeState :=
  let s := start hook initLife
  onLoadDone^[s.preloadCount.toNat] s

/-- A preload hook whose triggered calls all complete asynchronously just
accumulates the counter. -/
theorem runHook_async (calls : List Bool) (h : ∀ b ∈ calls, b = false)
    (s : LifeState) :
    runHook calls s = { s with preloadCount := s.preloadCount + calls.length } := by
  induction calls generalizing s with
  | nil => simp [runHook]
  | cons c rest ih =>
      have hc : c = false := h c (List.mem_cons_self c rest)
      have hrest : ∀ b ∈ rest, b = false := fun b hb => h b (List.mem_cons_of_mem c hb)
      subst hc
      rw [runHook, List.foldl_cons, ← runHook, ih hrest]
      simp [triggerLoad]
      omega

/-- Draining: iterating the completion callback exactly `preloadCount` times
(with a positive counter) fires `_setup(); _runFrames(); _draw();` exactly at
the last decrement. -/
theorem drain_fires_once (k : Nat) :
    ∀ s : LifeState, s.preloadCount = k + 1 →
    onLoadDone^[k + 1] s = setupRunDraw { s with preloadCount := 0 } := by
  induction k with
  | zero =>
      intro s hs
      simp [Function.iterate_one, onLoadDone, hs]
  | succ k ih =>
      intro s hs
      rw [Function.iterate_succ_apply]
      have h1 : onLoadDone s = { s with preloadCount := (k : Int) + 1 } := by
        simp [onLoadDone, hs]
        intro h
        exfalso
        omega
      rw [h1, ih _ (by simp)]

/-- Draining fewer times than the counter value never fires setup. -/
theorem drain_prefix (j : Nat) :
    ∀ s : LifeState, (j : Int) < s.preloadCount →
    onLoadDone^[j] s = { s with preloadCount := s.preloadCount - j } := by
  induction j with
  | zero => intro s _; simp
  | succ j ih =>
      intro s hs
      rw [Function.iterate_succ_apply]
      have h1 : onLoadDone s = { s with preloadCount := s.preloadCount - 1 } := by
        simp [onLoadDone]
        omega
      rw [h1, ih _ (by simp; omega)]
      simp
      omega

/-- C1 (counterexample): the claim fails when a triggered call completes
synchronously.  With a preload hook making one synchronously-completing
call, the completion callback drains the counter to zero and runs `_setup`
during the hook, and then `_start`'s own `_preloadCount === 0` check runs
`_setup` a second time: setup is invoked twice, not exactly once. -/
theorem preload_sync_double_setup :
    (runSketch (some [true])).setupCalls = 2 := by decide

/-- C1 (amended): provided every triggered call completes asynchronously
(no completion callback runs during the preload hook itself), the setup hook
is invoked exactly once over the whole run, the counter ends at zero, and
setup has not yet been invoked at any point before the last outstanding
completion callback has decremented the counter — regardless of the order in
which the (indistinguishable) completion callbacks are delivered. -/
theorem preload_gate_exactly_once (calls : List Bool)
    (h : ∀ b ∈ calls, b = false) :
    (runSketch (some calls)).setupCalls = 1 ∧
    (runSketch (some calls)).preloadCount = 0 ∧
    (∀ j < calls.length,
      (onLoadDone^[j] (start (some calls) initLife)).setupCalls = 0) := by
  have hstart : start (some calls) initLife =
      if (calls.length : Int) = 0 then
        setupRunDraw { initLife with preloadCount := (calls.length : Int) }
      else { initLife with preloadCount := (calls.length : Int) } := by
    simp only [start, runHook_async calls h]
    norm_num [initLife]
  cases calls with
  | nil =>
      refine ⟨?_, ?_, ?_⟩
      · decide
      · decide
      · intro j hj; simp at hj
  | cons c rest =>
      have hlen : ((c :: rest).length : Int) = (rest.length : Int) + 1 := by
        simp
      have hne : ¬ ((c :: rest).length : Int) = 0 := by omega
      have hstate : start (some (c :: rest)) initLife =
          { initLife with preloadCount := ((c :: rest).length : Int) } := by
        rw [hstart, if_neg hne]
      refine ⟨?_, ?_, ?_⟩
      · show (onLoadDone^[(start (some (c :: rest))
              initLife).preloadCount.toNat] (start (some (c :: rest))
              initLife)).setupCalls = 1
        rw [hstate]
        have ht : ({ initLife with
            preloadCount := ((c :: rest).length : Int) } :
            LifeState).preloadCount.toNat = rest.length + 1 := by
          simp [initLife]
        rw [ht, drain_fires_once rest.length _ (by simp [initLife])]
        rfl
      · show (onLoadDone^[(start (some (c :: rest))
              initLife).preloadCount.toNat] (start (some (c :: rest))
              initLife)).preloadCount = 0
        rw [hstate]
        have ht : ({ initLife with
            preloadCount := ((c :: rest).length : Int) } :
            LifeState).preloadCount.toNat = rest.length + 1 := by
          simp [initLife]
        rw [ht, drain_fires_once rest.length _ (by simp [initLife])]
        rfl
      · intro j hj
        rw [hstate, drain_prefix j _ (by simp [initLife]; omega)]
        simp [initLife]

/-- C1 (witness): the amended theorem applied to two asynchronously
completing preload calls. -/
theorem preload_gate_exactly_once_witness :
    (∀ b ∈ [false, false], b = false) ∧
    ((runSketch (some [false, false])).setupCalls = 1 ∧
     (runSketch (some [false, false])).preloadCount = 0 ∧
     (∀ j < [false, false].length,
       (onLoadDone^[j] (start (some [false, false]) initLife)).setupCalls = 0)) :=
  ⟨by decide, preload_gate_exactly_once [false, false] (by decide)⟩

/-- C6: with no preload hook (neither on the instance nor, in global mode,
on the window), `_start` runs `_setup(); _runFrames(); _draw();` directly —
setup is invoked exactly once, synchronously inside `_start`, and the whole
run equals `_start` alone: no asynchronous completion or timer event is
interposed before setup. -/
theorem no_preload_setup_sync :
    start none initLife = setupRunDraw initLife ∧
    (start none initLife).setupCalls = 1 ∧
    runSketch none = start none initLife := by
  refine ⟨rfl, rfl, ?_⟩
  decide

/-! ## The draw driver and the frame-count ticker -/

/-- State touched by `_draw` (core.js lines 247-272), `_runFrames` (274-281)
and `_setProperty` (283-288).  Timer ids armed in the environment are kept in
two pools (`setTimeout` timeouts and `setInterval` tickers); in the source
environment `clearTimeout`/`clearInterval` clear a timer from either pool.
`frameRate = none` models a value that is not a finite number (`NaN` from an
undefined previous timestamp, or `Infinity` from a zero elapsed time). -/
structure DrawState where
  loop : Bool
  drawInterval : Option Nat
  updateInterval : Option Nat
  armedTimeouts : List Nat
  armedTickers : List Nat
  nextTimerId : Nat
  lastFrameTime : Option Int
  frameRate : Option ℚ
  styles : Nat
  scaleCalls : Nat
  frameCount : Nat
  windowFrameCount : Option Nat
  isGlobal : Bool
  hasSetupHook : Bool
  hasDrawHook : Bool
  drawHookCalls : Nat
  deriving Repr, DecidableEq

/-- `clearTimeout` / `clearInterval`: disarm the timer with this id. -/
def clearTimer (id : Nat) (s : DrawState) : DrawState :=
  { s with armedTimeouts := s.armedTimeouts.filter (fun t => t ≠ id)
         , armedTickers := s.armedTickers.filter (fun t => t ≠ id) }

/-- `this._frameRate = 1000.0/(now - this._lastFrameTime)` (core.js line
250): with `_lastFrameTime` undefined the difference is `NaN`, and with a
zero difference the quotient is `Infinity`; both are modelled as `none`. -/
def frameRateOf (last : Option Int) (now : Int) : Option ℚ :=
  match last with
  | none => none
  | some t => if now - t = 0 then none else some (1000 / ((now - t : Int) : ℚ))

/-- One invocation of `_draw` (core.js lines 247-272) at wall-clock time
`now`; `throws` tells whether `userDraw()` raises an exception (which
propagates, aborting the rest of the body). -/
def drawTick (now : Int) (throws : Bool) (s : DrawState) : DrawState :=
  let s := { s with frameRate := frameRateOf s.lastFrameTime now
                  , lastFrameTime := some now }
  let s :=
    if s.loop then
      let s := match s.drawInterval with
        | some id => clearTimer id s
        | none => s
      { s with drawInterval := some s.nextTimerId
             , armedTimeouts := s.nextTimerId :: s.armedTimeouts
             , nextTimerId := s.nextTimerId + 1 }
    else s
  if s.hasDrawHook then
    let s := { s with styles := s.styles + 1 }
    let s := if ! s.hasSetupHook then { s with scaleCalls := s.scaleCalls + 1 } else s
    let s := { s with drawHookCalls := s.drawHookCalls + 1 }
    if throws then s
    else { s with styles := s.styles - 1 }
  else s

/-- `_setProperty` (core.js lines 283-288) applied to `frameCount`: the
instance field is written and, in global mode, the window view in the same
step. -/
def setPropertyFrameCount (v : Nat) (s : DrawState) : DrawState :=
  let s := { s with frameCount := v }
  if s.isGlobal then { s with windowFrameCount := some v } else s

/-- One firing of the frame-count ticker armed by `_runFrames` (core.js
line 279). -/
def tickerFire (s : DrawState) : DrawState :=
  setPropertyFrameCount (s.frameCount + 1) s

/-- `_runFrames` (core.js lines 274-281): clear any previously recorded
ticker, then arm a fresh `setInterval` ticker and record its id. -/
def runFrames (s : DrawState) : DrawState :=
  let s := match s.updateInterval with
    | some id => clearTimer id s
    | none => s
  { s with updateInterval := some s.nextTimerId
         , armedTickers := s.nextTimerId :: s.armedTickers
         , nextTimerId := s.nextTimerId + 1 }

/-- A paused instance (loop flag off) with a draw hook present and a pending
draw timeout still armed, mid-run. -/
def pausedDraw : DrawState :=
  { loop := false, drawInterval := some 7, updateInterval := none
  , armedTimeouts := [7], armedTickers := [], nextTimerId := 8
  , lastFrameTime := some 100, frameRate := none, styles := 0, scaleCalls := 0
  , frameCount := 3, windowFrameCount := some 3, isGlobal := true
  , hasSetupHook := true, hasDrawHook := true, drawHookCalls := 0 }

/-- The same instance with the loop flag on. -/
def loopingDraw : DrawState := { pausedDraw with loop := true }

/-- An instance on its very first tick: `_lastFrameTime` still undefined. -/
def freshDraw : DrawState := { pausedDraw with lastFrameTime := none }

/-- C3 (counterexample): a draw tick that fires while the loop flag is false
still executes the user draw hook — `_draw` only guards the re-arm with
`this._loop`, not the `userDraw()` call. -/
theorem paused_tick_still_draws :
    pausedDraw.loop = false ∧
    pausedDraw.drawHookCalls = 0 ∧
    (drawTick 150 false pausedDraw).drawHookCalls = 1 := by decide

/-- C3 (amended): a draw tick that fires while the loop flag is false does
not re-arm the draw driver — the pending-timeout record and both timer pools
are untouched, so no further driver-scheduled ticks are created — but the
tick itself does still execute the user draw hook when one is present. -/
theorem paused_tick_no_rearm (s : DrawState) (h : s.loop = false)
    (now : Int) (throws : Bool) :
    (drawTick now throws s).drawInterval = s.drawInterval ∧
    (drawTick now throws s).armedTimeouts = s.armedTimeouts ∧
    (drawTick now throws s).armedTickers = s.armedTickers ∧
    (s.hasDrawHook = true →
      (drawTick now throws s).drawHookCalls = s.drawHookCalls + 1) := by
  cases hd : s.hasDrawHook <;> cases hs : s.hasSetupHook <;> cases throws <;>
    simp [drawTick, h, hd, hs]

/-- C3 (witness). -/
theorem paused_tick_no_rearm_witness :
    pausedDraw.loop = false ∧
    ((drawTick 150 true pausedDraw).drawInterval = pausedDraw.drawInterval ∧
     (drawTick 150 true pausedDraw).armedTimeouts = pausedDraw.armedTimeouts ∧
     (drawTick 150 true pausedDraw).armedTickers = pausedDraw.armedTickers ∧
     (pausedDraw.hasDrawHook = true →
       (drawTick 150 true pausedDraw).drawHookCalls = pausedDraw.drawHookCalls + 1)) :=
  ⟨rfl, paused_tick_no_rearm pausedDraw rfl 150 true⟩

/-- C4 (counterexample): `userDraw()` is not wrapped in any
exception-protection, so when the user draw hook throws, `this.pop()` on the
following line is skipped and the pushed drawing-state scope remains on the
style stack after the tick. -/
theorem draw_exception_leaks_scope :
    pausedDraw.styles = 0 ∧
    pausedDraw.hasDrawHook = true ∧
    (drawTick 150 true pausedDraw).styles = 1 := by decide

/-- C4 (amended): the scope pushed before the user draw hook is popped after
the hook only on the normal-return path; when the hook throws, the pop is
skipped and the pushed scope remains on the style stack on exit from the
tick. -/
theorem draw_scope_pop (s : DrawState) (h : s.hasDrawHook = true) (now : Int) :
    (drawTick now false s).styles = s.styles ∧
    (drawTick now true s).styles = s.styles + 1 := by
  cases hl : s.loop <;> cases hs : s.hasSetupHook <;>
    cases hdi : s.drawInterval <;> simp [drawTick, clearTimer, h, hl, hs, hdi]

/-- C4 (witness). -/
theorem draw_scope_pop_witness :
    pausedDraw.hasDrawHook = true ∧
    ((drawTick 150 false pausedDraw).styles = pausedDraw.styles ∧
     (drawTick 150 true pausedDraw).styles = pausedDraw.styles + 1) :=
  ⟨rfl, draw_scope_pop pausedDraw rfl 150⟩

/-- On every tick, `_draw` records `1000.0/(now - this._lastFrameTime)` and
then overwrites `_lastFrameTime` with `now`, before anything else. -/
theorem drawTick_measures (now : Int) (throws : Bool) (s : DrawState) :
    (drawTick now throws s).frameRate = frameRateOf s.lastFrameTime now ∧
    (drawTick now throws s).lastFrameTime = some now := by
  cases hl : s.loop <;> cases hd : s.hasDrawHook <;>
    cases hs : s.hasSetupHook <;> cases throws <;>
      cases hdi : s.drawInterval <;>
        simp [drawTick, clearTimer, hl, hd, hs, hdi]

/-- C5 (counterexample): `_draw` computes
`1000.0/(now - this._lastFrameTime)` with no guard; on the very first tick
`_lastFrameTime` is still undefined and the measured frame rate is not a
well-defined finite value. -/
theorem first_tick_frameRate_not_finite :
    freshDraw.lastFrameTime = none ∧
    (drawTick 150 false freshDraw).frameRate = none := by decide

/-- C5 (amended): on every tick the measured frame rate is set to
1000 divided by the elapsed time since the previous tick, and the previous
timestamp is then updated — but there is no guard: with an undefined
previous timestamp (first tick) or a zero elapsed time the result is not a
finite number. -/
theorem frameRate_computation (s : DrawState) (now : Int) (throws : Bool) :
    (drawTick now throws s).lastFrameTime = some now ∧
    (s.lastFrameTime = none → (drawTick now throws s).frameRate = none) ∧
    (∀ t, s.lastFrameTime = some t → now - t ≠ 0 →
      (drawTick now throws s).frameRate = some (1000 / ((now - t : Int) : ℚ))) ∧
    (∀ t, s.lastFrameTime = some t → now - t = 0 →
      (drawTick now throws s).frameRate = none) := by
  obtain ⟨hf, hlast⟩ := drawTick_measures now throws s
  refine ⟨hlast, ?_, ?_, ?_⟩
  · intro h; rw [hf, h]; rfl
  · intro t ht hnz; rw [hf, ht]; simp [frameRateOf, hnz]
  · intro t ht hz; rw [hf, ht]; simp [frameRateOf, hz]

/-- C5 (witness). -/
theorem frameRate_computation_witness :
    pausedDraw.lastFrameTime = some 100 ∧
    (150 - 100 : Int) ≠ 0 ∧
    (drawTick 150 false pausedDraw).frameRate = some (1000 / ((150 - 100 : Int) : ℚ)) :=
  ⟨rfl, by decide,
    (frameRate_computation pausedDraw 150 false).2.2.1 100 rfl (by decide)⟩

/-- C7: each ticker firing increments `frameCount` by exactly one through
`_setProperty`, which updates the global view in the same step in global
mode; a draw tick never changes `frameCount` (it is independent of draw
execution time); and `_runFrames` first clears the previously recorded
ticker before arming a new one, so starting from a consistent ticker record
exactly one ticker is armed afterwards. -/
theorem frameCount_ticker_spec (s : DrawState)
    (h : s.armedTickers = s.updateInterval.toList) :
    (tickerFire s).frameCount = s.frameCount + 1 ∧
    (s.isGlobal = true → (tickerFire s).windowFrameCount = some (s.frameCount + 1)) ∧
    (∀ now throws, (drawTick now throws s).frameCount = s.frameCount) ∧
    (runFrames s).armedTickers = [s.nextTimerId] ∧
    (runFrames s).updateInterval = some s.nextTimerId := by
  refine ⟨?_, ?_, ?_, ?_, ?_⟩
  · cases hg : s.isGlobal <;> simp [tickerFire, setPropertyFrameCount, hg]
  · intro hg; simp [tickerFire, setPropertyFrameCount, hg]
  · intro now throws
    cases hl : s.loop <;> cases hd : s.hasDrawHook <;>
      cases hs : s.hasSetupHook <;> cases throws <;>
        cases hdi : s.drawInterval <;>
          simp [drawTick, clearTimer, hl, hd, hs, hdi]
  · cases hu : s.updateInterval <;>
      simp [runFrames, clearTimer, hu, h]
  · cases hu : s.updateInterval <;> simp [runFrames, clearTimer, hu]

/-- C7 (witness). -/
theorem frameCount_ticker_spec_witness :
    pausedDraw.armedTickers = pausedDraw.updateInterval.toList ∧
    ((tickerFire pausedDraw).frameCount = pausedDraw.frameCount + 1 ∧
     (pausedDraw.isGlobal = true →
       (tickerFire pausedDraw).windowFrameCount = some (pausedDraw.frameCount + 1)) ∧
     (∀ now throws, (drawTick now throws pausedDraw).frameCount = pausedDraw.frameCount) ∧
     (runFrames pausedDraw).armedTickers = [pausedDraw.nextTimerId] ∧
     (runFrames pausedDraw).updateInterval = some pausedDraw.nextTimerId) :=
  ⟨rfl, frameCount_ticker_spec pausedDraw rfl⟩

/-- C10: while the loop flag is true, `_draw` arms the next deferred cycle
(lines 255-262) before invoking the user draw hook (lines 264-271), so even
when the hook throws — aborting the rest of the body — the next frame's
timeout is recorded and armed. -/
theorem loop_rearm_before_draw (s : DrawState) (h : s.loop = true)
    (now : Int) (throws : Bool) :
    (drawTick now throws s).drawInterval = some s.nextTimerId ∧
    s.nextTimerId ∈ (drawTick now throws s).armedTimeouts := by
  cases hd : s.hasDrawHook <;> cases hs : s.hasSetupHook <;> cases throws <;>
    cases hdi : s.drawInterval <;> simp [drawTick, clearTimer, h, hd, hs, hdi]

/-- C10 (witness): the throwing-hook case on a looping instance. -/
theorem loop_rearm_before_draw_witness :
    loopingDraw.loop = true ∧
    ((drawTick 150 true loopingDraw).drawInterval = some loopingDraw.nextTimerId ∧
     loopingDraw.nextTimerId ∈ (drawTick 150 true loopingDraw).armedTimeouts) :=
  ⟨rfl, loop_rearm_before_draw loopingDraw rfl 150 true⟩

/-! ## Teardown: `remove` (core.js lines 293-339) -/

/-- One record of `this._elements`: whether the underlying DOM element is
attached to a parent, the element-level handlers recorded in its `_events`
map, and the listeners currently bound on the element, each handler as an
(event-name, handler-id) pair. -/
structure ElemRec where
  attached : Bool
  evs : List (String × Nat)
  listeners : List (String × Nat)
  deriving Repr, DecidableEq

/-- State touched by `remove`: the guard element, the loop flag, the two
recorded timers and the pool of armed timer ids, the sketch-wide `_events`
map and the listeners bound on the window, the created-element records, the
registered remove callbacks (ids, invoked ones recorded in order), and the
global-mode bookkeeping (prototype keys, instance own-property names, and
the property names present on the window). -/
structure RemState where
  curElement : Bool
  loop : Bool
  drawInterval : Option Nat
  updateInterval : Option Nat
  armedTimers : List Nat
  events : List (String × Option Nat)
  windowListeners : List (String × Nat)
  elements : List ElemRec
  removeFuncs : List Nat
  removeFuncsRun : List Nat
  isGlobal : Bool
  protoProps : List String
  ownProps : List String
  windowProps : List String
  deriving Repr, DecidableEq

/-- `window.removeEventListener(ev, handler)`: a no-op when the recorded
handler is `null`, otherwise the matching listener is unbound. -/
def removeEventListenerW (ls : List (String × Nat)) (ev : String)
    (h : Option Nat) : List (String × Nat) :=
  match h with
  | none => ls
  | some hid => ls.filter (fun p => p ≠ (ev, hid))

/-- A `for (p in names) delete(window[p])` loop: every listed name is
removed from the window's property names. -/
def deleteProps (names : List String) (w : List String) : List String :=
  w.filter (fun n => n ∉ names)

/-- The sketch-wide unregistration loop (core.js lines 306-308):
`window.removeEventListener(ev, this._events[ev])` for every key of the
`_events` map. -/
def unregisterAll (evs : List (String × Option Nat))
    (ls : List (String × Nat)) : List (String × Nat) :=
  evs.foldl (fun acc p => removeEventListenerW acc p.1 p.2) ls

/-- The per-element teardown step (core.js lines 311-319): detach from the
parent when attached, and unbind every locally recorded handler. -/
def cleanElem (e : ElemRec) : ElemRec :=
  { e with attached := false
         , listeners := e.evs.foldl (fun acc p => acc.filter (fun q => q ≠ p))
             e.listeners }

/-- `remove` (core.js lines 293-339), guarded by `this._curElement`:
stop the loop and clear both timers; unregister every sketch-wide event
handler from the window; detach every created element and unbind its local
handlers; invoke the registered remove callbacks in order; and, in global
mode, delete every prototype key and every instance own-property from the
window. -/
def remove (s : RemState) : RemState :=
  if s.curElement then
    let s := { s with loop := false }
    let s := match s.drawInterval with
      | some id => { s with armedTimers := s.armedTimers.filter (fun t => t ≠ id) }
      | none => s
    let s := match s.updateInterval with
      | some id => { s with armedTimers := s.armedTimers.filter (fun t => t ≠ id) }
      | none => s
    let s := { s with windowListeners := unregisterAll s.events s.windowListeners }
    let s := { s with elements := s.elements.map cleanElem }
    let s := { s with removeFuncsRun := s.removeFuncsRun ++ s.removeFuncs }
    if s.isGlobal then
      { s with windowProps := deleteProps s.ownProps (deleteProps s.protoProps s.windowProps) }
    else s
  else s

/-- The event-unregistration loop never adds a listener. -/
theorem unregister_fold_subset (evs : List (String × Option Nat)) :
    ∀ (ls : List (String × Nat)) (x : String × Nat),
    x ∈ unregisterAll evs ls → x ∈ ls := by
  induction evs with
  | nil => intro ls x hx; simpa [unregisterAll] using hx
  | cons p rest ih =>
      intro ls x hx
      rw [unregisterAll, List.foldl_cons, ← unregisterAll] at hx
      have hx' := ih _ x hx
      cases hp : p.2 with
      | none => rw [hp] at hx'; exact hx'
      | some hid =>
          rw [hp] at hx'
          exact List.mem_of_mem_filter hx'

/-- Surviving the event-unregistration loop means surviving every single
unregistration: a handler recorded (non-null) in the `_events` map is not
among the survivors. -/
theorem mem_unregister_fold (evs : List (String × Option Nat)) :
    ∀ (ls : List (String × Nat)) (x : String × Nat),
    x ∈ unregisterAll evs ls →
    ∀ ev hid, (ev, some hid) ∈ evs → x ≠ (ev, hid) := by
  induction evs with
  | nil => intro ls x hx ev hid hmem; simp at hmem
  | cons p rest ih =>
      intro ls x hx ev hid hmem
      rw [unregisterAll, List.foldl_cons, ← unregisterAll] at hx
      rcases List.mem_cons.mp hmem with hp | hrest
      · have hx' : x ∈ removeEventListenerW ls p.1 p.2 :=
          unregister_fold_subset rest _ x hx
        rw [← hp] at hx'
        have := List.of_mem_filter hx'
        simpa using this
      · exact ih _ x hx ev hid hrest

/-- Removing each listed element by a filter loop never adds an element. -/
theorem mem_removeEach_subset {α : Type} [DecidableEq α] (rs : List α) :
    ∀ (ls : List α) (x : α),
    x ∈ rs.foldl (fun acc p => acc.filter (fun q => q ≠ p)) ls → x ∈ ls := by
  induction rs with
  | nil => intro ls x hx; simpa using hx
  | cons p rest ih =>
      intro ls x hx
      rw [List.foldl_cons] at hx
      exact List.mem_of_mem_filter (ih _ x hx)

/-- An element listed for removal does not survive the filter loop. -/
theorem mem_removeEach {α : Type} [DecidableEq α] (rs : List α) :
    ∀ (ls : List α) (x : α),
    x ∈ rs.foldl (fun acc p => acc.filter (fun q => q ≠ p)) ls →
    ∀ p ∈ rs, x ≠ p := by
  induction rs with
  | nil => intro ls x hx p hp; simp at hp
  | cons p rest ih =>
      intro ls x hx q hq
      rw [List.foldl_cons] at hx
      rcases List.mem_cons.mp hq with hq | hq
      · have hx' := mem_removeEach_subset rest _ x hx
        have := List.of_mem_filter hx'
        rw [hq]
        simpa using this
      · exact ih _ x hx q hq

/-- A deleted property name is gone from the window. -/
theorem not_mem_deleteProps (names w : List String) (n : String)
    (h : n ∈ deleteProps names w) : n ∉ names := by
  have := List.of_mem_filter h
  simpa [deleteProps] using this

/-- Deleting properties never adds one. -/
theorem deleteProps_subset (names w : List String) (n : String)
    (h : n ∈ deleteProps names w) : n ∈ w :=
  List.mem_of_mem_filter h

/-- Field-wise description of `remove` on an instance with an active primary
element. -/
theorem remove_proj (s : RemState) (h : s.curElement = true) :
    (remove s).windowListeners = unregisterAll s.events s.windowListeners ∧
    (remove s).elements = s.elements.map cleanElem ∧
    (remove s).loop = false ∧
    (s.isGlobal = true →
      (remove s).windowProps =
        deleteProps s.ownProps (deleteProps s.protoProps s.windowProps)) := by
  cases hdi : s.drawInterval <;> cases hui : s.updateInterval <;>
    cases hg : s.isGlobal <;> simp [remove, h, hdi, hui, hg]

/-- C2: after `remove()` on an instance with an active primary element,
every handler recorded (non-null) in the `_events` map is unbound from the
window; every element record is replaced by its cleaned form, in which the
underlying element is detached and every locally recorded handler is
unbound; and in global mode every prototype key and every instance
own-property name is gone from the window's properties. -/
theorem remove_teardown (s : RemState) (h : s.curElement = true) :
    (∀ ev hid, (ev, some hid) ∈ s.events →
      (ev, hid) ∉ (remove s).windowListeners) ∧
    ((remove s).elements = s.elements.map cleanElem) ∧
    (∀ e ∈ s.elements, (cleanElem e).attached = false ∧
      ∀ p ∈ e.evs, p ∉ (cleanElem e).listeners) ∧
    (s.isGlobal = true → ∀ n, n ∈ s.protoProps ∨ n ∈ s.ownProps →
      n ∉ (remove s).windowProps) := by
  obtain ⟨hw, hel, -, hg⟩ := remove_proj s h
  refine ⟨?_, hel, ?_, ?_⟩
  · intro ev hid hmem hcontra
    rw [hw] at hcontra
    exact mem_unregister_fold s.events _ _ hcontra ev hid hmem rfl
  · intro e _
    refine ⟨rfl, ?_⟩
    intro p hp hcontra
    exact mem_removeEach e.evs _ _ hcontra p hp rfl
  · intro hgl n hn hcontra
    rw [hg hgl] at hcontra
    rcases hn with hn | hn
    · exact not_mem_deleteProps _ _ _ (deleteProps_subset _ _ _ hcontra) hn
    · exact not_mem_deleteProps _ _ _ hcontra hn

/-- A mid-run instance with an active primary element, a bound sketch-wide
handler, one attached element with a local handler, and global-mode
bindings on the window. -/
def sampleRem : RemState :=
  { curElement := true, loop := true, drawInterval := some 1
  , updateInterval := some 2, armedTimers := [1, 2]
  , events := [("mousedown", some 10), ("keyup", none)]
  , windowListeners := [("mousedown", 10), ("focus", 99)]
  , elements := [{ attached := true, evs := [("click", 5)], listeners := [("click", 5)] }]
  , removeFuncs := [0], removeFuncsRun := []
  , isGlobal := true, protoProps := ["rect", "loadImage"]
  , ownProps := ["_loop", "frameCount"]
  , windowProps := ["rect", "loadImage", "_loop", "frameCount", "unrelated"] }

/-- The same instance after its primary element is gone. -/
def idleRem : RemState := { sampleRem with curElement := false }

/-- C2 (witness). -/
theorem remove_teardown_witness :
    sampleRem.curElement = true ∧
    ((∀ ev hid, (ev, some hid) ∈ sampleRem.events →
       (ev, hid) ∉ (remove sampleRem).windowListeners) ∧
     ((remove sampleRem).elements = sampleRem.elements.map cleanElem) ∧
     (∀ e ∈ sampleRem.elements, (cleanElem e).attached = false ∧
       ∀ p ∈ e.evs, p ∉ (cleanElem e).listeners) ∧
     (sampleRem.isGlobal = true → ∀ n,
       n ∈ sampleRem.protoProps ∨ n ∈ sampleRem.ownProps →
       n ∉ (remove sampleRem).windowProps)) :=
  ⟨rfl, remove_teardown sampleRem rfl⟩

/-- C9: `remove()` on an instance with no active primary element leaves the
whole state unchanged — no timer is cancelled, no handler unbound, no
element detached, no remove callback invoked, no window property deleted. -/
theorem remove_no_element_noop (s : RemState) (h : s.curElement = false) :
    remove s = s := by
  simp [remove, h]

/-- C9 (witness). -/
theorem remove_no_element_noop_witness :
    idleRem.curElement = false ∧ remove idleRem = idleRem :=
  ⟨rfl, remove_no_element_noop idleRem rfl⟩

/-! ## Global capability binding (core.js lines 349-367) -/

/-- A value on the shared capability table `p5.prototype`: a function
(identified by an id) or a plain data value. -/
inductive CapVal where
  | fn (id : Nat)
  | val (v : Int)
  deriving Repr, DecidableEq

/-- An entry written onto the window: a prototype function bound to the
instance (`p5.prototype[p].bind(this)`), or a data value copied as is. -/
inductive WinEntry where
  | boundFn (id : Nat)
  | plain (v : Int)
  deriving Repr, DecidableEq

/-- The keys of the `_events` map initialised in the constructor (core.js
lines 153-167). -/
def p5EventNames : List String :=
  ["mousemove", "mousedown", "mouseup", "click", "mousewheel", "mouseover",
   "mouseout", "keydown", "keyup", "keypress", "touchstart", "touchmove",
   "touchend"]

/-- The `!sketch` branch (core.js lines 351-361): for each prototype key, a
function value whose name minus its first two characters (`p.substring(2)`)
is an `_events` key is skipped; any other function value is bound to the
instance and written under its own name; a non-function value is copied by
value. -/
def bindGlobal (eventNames : List String) :
    List (String × CapVal) → List (String × WinEntry)
  | [] => []
  | (p, CapVal.fn id) :: rest =>
      if p.drop 2 ∈ eventNames then bindGlobal eventNames rest
      else (p, WinEntry.boundFn id) :: bindGlobal eventNames rest
  | (p, CapVal.val v) :: rest => (p, WinEntry.plain v) :: bindGlobal eventNames rest

/-- A name absent from the capability table is never written to the
window. -/
theorem bindGlobal_lookup_not_mem (eventNames : List String) (p : String) :
    ∀ proto : List (String × CapVal), p ∉ proto.map Prod.fst →
    (bindGlobal eventNames proto).lookup p = none := by
  intro proto
  induction proto with
  | nil => intro _; rfl
  | cons qv rest ih =>
      intro hnp
      obtain ⟨q, w⟩ := qv
      have hq : p ≠ q := by
        intro hpq; exact hnp (by simp [hpq])
      have hrest : p ∉ rest.map Prod.fst := by
        intro hmem; exact hnp (by simp [hmem])
      have hbeq : (p == q) = false := beq_eq_false_iff_ne.mpr hq
      cases w with
      | fn id =>
          by_cases hev : q.drop 2 ∈ eventNames
          · simpa only [bindGlobal, if_pos hev] using ih hrest
          · simpa only [bindGlobal, if_neg hev, List.lookup, hbeq] using ih hrest
      | val x =>
          simpa only [bindGlobal, List.lookup, hbeq] using ih hrest

/-- C8: with no sketch closure supplied, for every capability `(p, v)` on
the (duplicate-free) capability table: a function value whose name
corresponds to a reserved interaction-event hook name (its name minus the
leading two characters is an `_events` key) is skipped and `p` is not
written to the window; any other function value appears on the window under
its own name, bound to the instance; a non-function value appears copied by
value. -/
theorem global_binding_spec (eventNames : List String)
    (proto : List (String × CapVal)) (hnd : (proto.map Prod.fst).Nodup)
    (p : String) (v : CapVal) (hmem : (p, v) ∈ proto) :
    (∀ id, v = CapVal.fn id → p.drop 2 ∈ eventNames →
      (bindGlobal eventNames proto).lookup p = none) ∧
    (∀ id, v = CapVal.fn id → p.drop 2 ∉ eventNames →
      (bindGlobal eventNames proto).lookup p = some (WinEntry.boundFn id)) ∧
    (∀ x, v = CapVal.val x →
      (bindGlobal eventNames proto).lookup p = some (WinEntry.plain x)) := by
  induction proto with
  | nil => simp at hmem
  | cons qv rest ih =>
      obtain ⟨q, w⟩ := qv
      rw [List.map_cons, List.nodup_cons] at hnd
      obtain ⟨hqrest, hndrest⟩ := hnd
      rcases List.mem_cons.mp hmem with hhead | htail
      · have hpq : p = q := congrArg Prod.fst hhead
        have hvw : v = w := congrArg Prod.snd hhead
        subst hpq
        subst hvw
        have hnone : (bindGlobal eventNames rest).lookup p = none :=
          bindGlobal_lookup_not_mem eventNames p rest hqrest
        refine ⟨?_, ?_, ?_⟩
        · intro id hv hev; subst hv
          simpa only [bindGlobal, if_pos hev] using hnone
        · intro id hv hev; subst hv
          simp only [bindGlobal, if_neg hev, List.lookup, beq_self_eq_true]
        · intro x hv; subst hv
          simp only [bindGlobal, List.lookup, beq_self_eq_true]
      · have hpq : p ≠ q := by
          intro hpq
          have hm : p ∈ rest.map Prod.fst := List.mem_map_of_mem Prod.fst htail
          rw [hpq] at hm
          exact hqrest hm
        have hbeq : (p == q) = false := beq_eq_false_iff_ne.mpr hpq
        have ihs := ih hndrest htail
        cases w with
        | fn id =>
            by_cases hev : q.drop 2 ∈ eventNames
            · simpa only [bindGlobal, if_pos hev] using ihs
            · simpa only [bindGlobal, if_neg hev, List.lookup, hbeq] using ihs
        | val x =>
            simpa only [bindGlobal, List.lookup, hbeq] using ihs

/-- C8 (witness): a three-entry capability table (an event-hook-named
function, an ordinary function, and a constant) against the real `_events`
key set. -/
theorem global_binding_spec_witness :
    ((["onmousedown", "rect", "PI"] : List String).Nodup ∧
     ("onmousedown", CapVal.fn 1) ∈
       [("onmousedown", CapVal.fn 1), ("rect", CapVal.fn 2), ("PI", CapVal.val 3)]) ∧
    ("onmousedown".drop 2 ∈ p5EventNames →
      (bindGlobal p5EventNames
        [("onmousedown", CapVal.fn 1), ("rect", CapVal.fn 2),
         ("PI", CapVal.val 3)]).lookup "onmousedown" = none) :=
  ⟨⟨by decide, by decide⟩,
    (global_binding_spec p5EventNames
      [("onmousedown", CapVal.fn 1), ("rect", CapVal.fn 2), ("PI", CapVal.val 3)]
      (by decide) "onmousedown" (CapVal.fn 1) (by decide)).1 1 rfl⟩

end P5Core
